import Mathlib

/-
Verification of the table-parsing pipeline of the `parcer` repository.

The Python source is embedded shallowly: strings are `String` / `List Char`,
Python `str` primitives (strip, replace, split, lower, isdigit) are modelled
by executable Lean functions, DataFrames are rectangular `List (List String)`
grids, and the external classification oracle is an explicit input.
-/

namespace Parcer

/-! ## Python string primitives (over `List Char`) -/

/-- Python whitespace for `str.strip` / `str.split` (space, tab, LF, CR, VT, FF). -/
def isPySpace (c : Char) : Bool :=
  c == ' ' || c == '\t' || c == '\n' || c == '\r' || c.toNat == 11 || c.toNat == 12

/-- Python `str.strip()`: drop leading and trailing whitespace. -/
def stripChars (s : List Char) : List Char :=
  ((s.dropWhile isPySpace).reverse.dropWhile isPySpace).reverse

/-- Python `str.strip()` on `String`. -/
def pstrip (s : String) : String := String.mk (stripChars s.data)

/-- One step of Python `str.replace`: scan left to right, replacing each
non-overlapping occurrence of `pat` by `rep`.  `fuel` bounds the number of
scanning steps; it is instantiated with the haystack length, which suffices
because every step consumes at least one character of the haystack. -/
def replaceFuel (pat rep : List Char) : Nat → List Char → List Char
  | _, [] => []
  | 0, s => s
  | fuel + 1, c :: rest =>
    if !pat.isEmpty && pat.isPrefixOf (c :: rest) then
      rep ++ replaceFuel pat rep fuel ((c :: rest).drop pat.length)
    else
      c :: replaceFuel pat rep fuel rest

/-- Python `s.replace(pat, rep)` (for nonempty `pat`). -/
def replaceAll (s pat rep : List Char) : List Char := replaceFuel pat rep s.length s

/-- Python `pat in s` (substring test). -/
def hasSub (pat : List Char) : List Char → Bool
  | [] => pat.isEmpty
  | c :: rest => pat.isPrefixOf (c :: rest) || hasSub pat rest

/-- Python `str.lower()` restricted to the alphabets the source manipulates
(ASCII A-Z and Cyrillic А-Я, Ё). -/
def pyLowerChar (c : Char) : Char :=
  if 'A' ≤ c && c ≤ 'Z' then Char.ofNat (c.toNat + 32)
  else if 'А' ≤ c && c ≤ 'Я' then Char.ofNat (c.toNat + 32)
  else if c == 'Ё' then 'ё'
  else c

/-- Python `str.lower()` on a character list. -/
def pyLower (s : List Char) : List Char := s.map pyLowerChar

/-- Python `str.isdigit()` (ASCII digits; empty string is not a digit string). -/
def pyIsDigit (s : List Char) : Bool := !s.isEmpty && s.all Char.isDigit

/-- Worker for `splitWs`: accumulate the current word (reversed) while walking. -/
def splitWsGo : List Char → List Char → List (List Char)
  | acc, [] => if acc.isEmpty then [] else [acc.reverse]
  | acc, c :: rest =>
    if isPySpace c then
      if acc.isEmpty then splitWsGo [] rest else acc.reverse :: splitWsGo [] rest
    else splitWsGo (c :: acc) rest

/-- Python `str.split()` with no argument: split on whitespace runs, dropping
empty pieces. -/
def splitWs (s : List Char) : List (List Char) := splitWsGo [] s

/-- Worker for `splitOnChar`. -/
def splitOnGo (sep : Char) : List Char → List Char → List (List Char)
  | acc, [] => [acc.reverse]
  | acc, c :: rest =>
    if c == sep then acc.reverse :: splitOnGo sep [] rest
    else splitOnGo sep (c :: acc) rest

/-- Python `str.split(sep)` for a one-character separator (keeps empty pieces). -/
def splitOnChar (sep : Char) (s : List Char) : List (List Char) := splitOnGo sep [] s

/-! ## Python value model

Cells handed to the normalizers come from JSON and are not necessarily
strings; `PyVal` models the relevant Python values together with their
truthiness, so the `if not value or not isinstance(value, str)` guards of the
source can be expressed. -/

inductive PyVal where
  | str : String → PyVal
  | none : PyVal
  | int : Int → PyVal
  | boolean : Bool → PyVal
deriving DecidableEq

/-- Python truthiness of a `PyVal`. -/
def PyVal.truthy : PyVal → Bool
  | .str s => !s.isEmpty
  | .none => false
  | .int n => n != 0
  | .boolean b => b

/-! ## Cell Normalizer (src/analyze_tables.py)

`format_chemical_formula` (lines 239-295), `format_range_value` (297-347),
`define_limit_type` (349-369), `deduplicate_parameters` (371-380),
`process_parameters` (382-402). -/

/-- The `replacements` dictionary of `format_chemical_formula`, in insertion
(= iteration) order. -/
def chemReplacements : List (List Char × List Char) :=
  [("CH4".data, "CH₄".data), ("CO2".data, "CO₂".data), ("H2".data, "H₂".data),
   ("C2H6".data, "C₂H₆".data), ("C3H8".data, "C₃H₈".data), ("C4H10".data, "C₄H₁₀".data),
   ("C5H12".data, "C₅H₁₂".data), ("C6H14".data, "C₆H₁₄".data), ("C7H16".data, "C₇H₁₆".data),
   ("C8H18".data, "C₈H₁₈".data), ("CH".data, "CH₄".data), ("C2H4".data, "C₂H₄".data),
   ("C3H6".data, "C₃H₆".data), ("C4".data, "C₄H₁₀".data), ("C5".data, "C₅H₁₂".data),
   ("C6".data, "C₆H₁₄".data), ("C7".data, "C₇H₁₆".data), ("C8".data, "C₈H₁₈".data),
   ("CзH".data, "C₃H₈".data)]

/-- Body of `format_chemical_formula` for a (non-empty) string input.  The
`try` block only performs pure string operations, so the `except` branch is
unreachable and the body is total. -/
def fcfChars (s : List Char) : List Char :=
  let s1 := replaceAll (replaceAll s "С".data "C".data) "Н".data "H".data
  let s2 := replaceAll s1 " ".data "".data
  let s3 :=
    if hasSub "CH".data s2 && !(hasSub "CH4".data s2 || hasSub "CH₄".data s2) then
      replaceAll s2 "CH".data "CH4".data
    else s2
  let s4 :=
    if hasSub "C2H".data s3 && !(hasSub "C2H6".data s3 || hasSub "C₂H₆".data s3) then
      replaceAll s3 "C2H".data "C2H6".data
    else s3
  let s5 :=
    if hasSub "C3H".data s4 && !(hasSub "C3H8".data s4 || hasSub "C₃H₈".data s4) then
      replaceAll s4 "C3H".data "C3H8".data
    else s4
  let s6 := chemReplacements.foldl (fun acc pr => replaceAll acc pr.1 pr.2) s5
  replaceAll s6 " ".data "".data

/-- `format_chemical_formula` on a string that passed the falsy / non-string guard. -/
def format_chemical_formula (s : String) : String := String.mk (fcfChars s.data)

/-- `format_chemical_formula` on an arbitrary Python value: the source guard
`if not formula or not isinstance(formula, str): return formula` returns the
input unchanged for falsy or non-string inputs. -/
def format_chemical_formula_py : PyVal → PyVal
  | .str s => if s.isEmpty then .str s else .str (format_chemical_formula s)
  | v => v

/-- Helper of `format_range_value`, step 3: `p.replace('.','').replace(',','')`. -/
def dropDotsCommas (p : List Char) : List Char :=
  replaceAll (replaceAll p ".".data "".data) ",".data "".data

/-- Body of `format_range_value` for a (non-empty) string input; the `try`
block only performs pure string operations, so the `except` branch is
unreachable. -/
def frvChars (v0 : List Char) : List Char :=
  let v1 := stripChars (replaceAll v0 "в пределах".data "".data)
  let v2 := replaceAll v1 "÷".data "-".data
  let v3 :=
    if hasSub " ".data v2 && !hasSub "-".data v2 && !hasSub ",".data v2 then
      match splitWs v2 with
      | [p1, p2] =>
        if pyIsDigit (dropDotsCommas p1) && pyIsDigit (dropDotsCommas p2) then
          p1 ++ '-' :: p2
        else v2
      | _ => v2
    else v2
  let v4 :=
    if hasSub "не более".data (pyLower v3) then
      stripChars (replaceAll (pyLower v3) "не более".data "".data)
    else v3
  let v5 :=
    if hasSub "не менее".data (pyLower v4) then
      stripChars (replaceAll (pyLower v4) "не менее".data "".data)
    else v4
  let v6 := replaceAll (replaceAll (replaceAll v5 " - ".data "-".data) " -".data "-".data)
              "- ".data "-".data
  let v7 :=
    if hasSub ",".data v6 && !hasSub "-".data v6 then
      match splitOnChar ',' v6 with
      | [p1, p2] =>
        if pyIsDigit (replaceAll (stripChars p1) ".".data "".data)
            && pyIsDigit (replaceAll (stripChars p2) ".".data "".data) then
          stripChars p1 ++ '-' :: stripChars p2
        else v6
      | _ => v6
    else v6
  stripChars v7

/-- `format_range_value` on a string that passed the falsy / non-string guard. -/
def format_range_value (s : String) : String := String.mk (frvChars s.data)

/-- `format_range_value` on an arbitrary Python value: falsy or non-string
inputs are returned unchanged by the leading guard. -/
def format_range_value_py : PyVal → PyVal
  | .str s => if s.isEmpty then .str s else .str (format_range_value s)
  | v => v

/-- `define_limit_type` on a string that passed the guard: `max` / `min` for
the bound phrases (checked on the lowercased value), `range` when a dash or
`÷` occurs in the original value, otherwise `exact`. -/
def define_limit_type (value : String) : String :=
  if hasSub "не более".data (pyLower value.data) then "max"
  else if hasSub "не менее".data (pyLower value.data) then "min"
  else if hasSub "-".data value.data || hasSub "÷".data value.data then "range"
  else "exact"

/-- `define_limit_type` on an arbitrary Python value: the source guard
`if not value or not isinstance(value, str): return ""` yields the empty
string (not the input) for falsy or non-string inputs. -/
def define_limit_type_py : PyVal → PyVal
  | .str s => if s.isEmpty then .str "" else .str (define_limit_type s)
  | _ => .str ""

/-! ## Parameter post-processing (src/analyze_tables.py, lines 371-402) -/

/-- A parameter dictionary as returned by the extraction oracle: each field is
`Option` (absent key) of a raw JSON value. -/
structure Param where
  name : Option PyVal
  value : Option PyVal
  unit : Option PyVal
  limit_type : Option PyVal
  notes : Option PyVal
deriving DecidableEq

/-- Deduplication key of `deduplicate_parameters`:
`(p.get("name"), p.get("value"))`. -/
def paramKey (p : Param) : Option PyVal × Option PyVal := (p.name, p.value)

/-- Loop of `deduplicate_parameters`: keep a parameter only when its key has
not been seen; `seen` collects the keys of all parameters visited so far. -/
def dedupAux : List (Option PyVal × Option PyVal) → List Param → List Param
  | _, [] => []
  | seen, p :: rest =>
    if paramKey p ∈ seen then dedupAux seen rest
    else p :: dedupAux (paramKey p :: seen) rest

/-- `deduplicate_parameters`: drop duplicates by `(name, value)`, keeping the
first occurrence. -/
def deduplicate_parameters (ps : List Param) : List Param := dedupAux [] ps

/-- Loop body of `process_parameters` (lines 385-399): format the name as a
chemical formula when the key is present; when the value key is present,
capture the original value, normalize it as a range, and overwrite
`limit_type` with the classification of the original value. -/
def processOne (p : Param) : Param :=
  let p1 := match p.name with
    | some n => { p with name := some (format_chemical_formula_py n) }
    | Option.none => p
  match p1.value with
  | some v =>
    { p1 with value := some (format_range_value_py v),
              limit_type := some (define_limit_type_py v) }
  | Option.none => p1

/-- `process_parameters`: normalize every parameter, then deduplicate. -/
def process_parameters (ps : List Param) : List Param :=
  deduplicate_parameters (ps.map processOne)

/-! ## Table stitching heuristics (src/merge_tables.py)

`remove_brackets_and_dots_around_number` (lines 94-105), `row_is_all_digits`
(107-123), `unify_empty_columns_in_first_row` (125-173),
`merge_tables_in_folder` (180-287). -/

/-- Wrapping characters admitted before the number by the regex
`^[\(\[\{\.]*([+-]?\d+(?:[.,]\d+)?)[\)\]\}\.]*$`. -/
def isOpenWrap (c : Char) : Bool := c == '(' || c == '[' || c == '{' || c == '.'

/-- Wrapping characters admitted after the number by the same regex. -/
def isCloseWrap (c : Char) : Bool := c == ')' || c == ']' || c == '}' || c == '.'

/-- Match `[+-]?\d+(?:[.,]\d+)?` at the front of `l`; return the matched
characters and the remainder.  The fractional part is taken exactly when a
separator is followed by at least one digit, which coincides with the regex
engine's greedy-with-backtracking behavior here. -/
def parseNumberCore (l : List Char) : Option (List Char × List Char) :=
  let sign : List Char × List Char :=
    match l with
    | c :: rest => if c == '+' || c == '-' then ([c], rest) else ([], l)
    | [] => ([], [])
  let intPart := sign.2.takeWhile Char.isDigit
  let afterInt := sign.2.dropWhile Char.isDigit
  if intPart.isEmpty then Option.none
  else
    match afterInt with
    | c :: rest =>
      if c == '.' || c == ',' then
        let frac := rest.takeWhile Char.isDigit
        if frac.isEmpty then some (sign.1 ++ intPart, afterInt)
        else some (sign.1 ++ intPart ++ c :: frac, rest.dropWhile Char.isDigit)
      else some (sign.1 ++ intPart, afterInt)
    | [] => some (sign.1 ++ intPart, [])

/-- `remove_brackets_and_dots_around_number`: strip the cell, peel wrapping
brackets/dots around a bare (possibly comma-decimal) number and return the
number with `,` replaced by `.`; otherwise return the cell unchanged. -/
def remove_brackets_and_dots_chars (s : List Char) : List Char :=
  let t := stripChars s
  match parseNumberCore (t.dropWhile isOpenWrap) with
  | some nr => if nr.2.all isCloseWrap then replaceAll nr.1 ",".data ".".data else s
  | Option.none => s

/-- String version of `remove_brackets_and_dots_around_number`. -/
def remove_brackets_and_dots_around_number (s : String) : String :=
  String.mk (remove_brackets_and_dots_chars s.data)

/-- Tail of the regex `^[+-]?\d+(\.\d+)?$` after the optional sign. -/
def numTail (l : List Char) : Bool :=
  let ds := l.takeWhile Char.isDigit
  let r := l.dropWhile Char.isDigit
  !ds.isEmpty &&
    (r.isEmpty ||
      match r with
      | '.' :: rest => !rest.isEmpty && rest.all Char.isDigit
      | _ => false)

/-- The regex `^[+-]?\d+(\.\d+)?$` of `row_is_all_digits` (note: no comma). -/
def matchesNumber (l : List Char) : Bool :=
  match l with
  | c :: rest => if c == '+' || c == '-' then numTail rest else numTail l
  | [] => false

/-- `row_is_all_digits`: `False` for the empty row and for a row with no
non-blank cell; otherwise every non-blank cell must reduce to a number after
`remove_brackets_and_dots_around_number`. -/
def row_is_all_digits (row : List String) : Bool :=
  if row.isEmpty then false
  else
    let nonEmptyCells := row.filter (fun x => !(stripChars x.data).isEmpty)
    if nonEmptyCells.isEmpty then false
    else nonEmptyCells.all
      (fun x => matchesNumber (stripChars (remove_brackets_and_dots_chars x.data)))

/-- Continuation verdict for a fragment pair. -/
inductive Verdict where
  | CONTINUATION
  | NEW_TABLE
deriving DecidableEq

/-- The structural continuation decision of `merge_tables_in_folder` (line
219): a fragment whose loaded first row is all-numeric is treated as the
continuation of the current run; the decision reads nothing but that first
row (in particular it never consults an oracle and never inspects the
preceding fragment). -/
def classify_first_row (row : List String) : Verdict :=
  if row_is_all_digits row then .CONTINUATION else .NEW_TABLE

/-- Blank-row test of `load_csv` (line 90):
`''.join(row).strip() == ''`. -/
def blankRow (row : List String) : Bool := (stripChars (String.join row).data).isEmpty

/-- A pandas DataFrame of strings: the column labels (`df.columns`) and the
rows.  Labels matter because `unify_empty_columns_in_first_row` deletes
columns with `df.drop(df.columns[j])`, which does not relabel the remaining
columns, and later column assignment `df[lbl] = ...` goes by label:
assigning an existing label overwrites that column in place, while a fresh
label appends a new column on the right. -/
structure DF where
  labels : List Nat
  rows : List (List String)
deriving DecidableEq

/-- pandas `df.empty`: true when either axis has length 0. -/
def dfEmpty (d : DF) : Bool := d.rows.isEmpty || d.labels.isEmpty

/-- `load_csv` on an extracted grid: reading with
`header=None, dtype=str, keep_default_na=False` labels the columns
`0..n-1` (the grids produced by `extract_tables` are rectangular, so `n` is
the width of the first raw row) and leaves the cell strings unchanged;
`fillna('')` is then a no-op and only the blank-row filter remains. -/
def load_csv (g : List (List String)) : DF :=
  ⟨List.range (g.headD []).length, g.filter (fun r => !blankRow r)⟩

/-- Cell merging of `unify_empty_columns_in_first_row` (lines 157-163):
concatenate the stripped cells with `/` when both are non-blank, otherwise
keep the non-blank side (stripped). -/
def mergeCellPair (a b : String) : String :=
  let l := stripChars a.data
  let c := stripChars b.data
  if !l.isEmpty && !c.isEmpty then String.mk (l ++ '/' :: c)
  else if !l.isEmpty then String.mk l
  else String.mk c

/-- Scan of the first row (lines 149-154): find the least `j ≥ 1` whose cell
is blank while cell `j-1` is non-blank. -/
def findMergePosAux : Nat → List String → Option Nat
  | _, [] => Option.none
  | _, [_] => Option.none
  | j, a :: b :: rest =>
    if !(stripChars a.data).isEmpty && (stripChars b.data).isEmpty then some j
    else findMergePosAux (j + 1) (b :: rest)

/-- Position of the first mergeable column in the first row. -/
def findMergePos (firstRow : List String) : Option Nat := findMergePosAux 1 firstRow

/-- Merge column `j` into column `j-1` of one row and delete column `j`. -/
def mergeRowAt (j : Nat) (row : List String) : List String :=
  row.take (j - 1) ++ [mergeCellPair (row.getD (j - 1) "") (row.getD j "")] ++ row.drop (j + 1)

/-- The `while changed` loop of `unify_empty_columns_in_first_row`: as long as
the grid has at least 2 columns and the first row has a mergeable position,
merge that column pair in every row and rescan.  Each step deletes one
column, so the initial column count bounds the iterations. -/
def unifyLoop : Nat → List (List String) → List (List String)
  | 0, g => g
  | fuel + 1, g =>
    if (g.headD []).length < 2 then g
    else
      match findMergePos (g.headD []) with
      | some j => unifyLoop fuel (g.map (mergeRowAt j))
      | Option.none => g

/-- `unify_empty_columns_in_first_row`: merge degenerate (blank-header)
columns into their left neighbors.  This is the row-content view of the
source function (sufficient for claims about a fragment's cells); `unifyDF`
below additionally tracks the column labels the source frame carries, and
`unifyDF_rows_eq` proves the two agree on rows. -/
def unify_empty_columns_in_first_row (g : List (List String)) : List (List String) :=
  if g.isEmpty || (g.headD []).length < 2 then g
  else unifyLoop (g.headD []).length g

/-- The `while changed` loop of `unify_empty_columns_in_first_row` on the
labeled frame: each merge also executes
`df2.drop(df2.columns[j], axis=1, inplace=True)`, which removes the label at
position `j` without relabeling the remaining columns. -/
def unifyLoopDF : Nat → DF → DF
  | 0, d => d
  | fuel + 1, d =>
    if d.labels.length < 2 then d
    else
      match findMergePos (d.rows.headD []) with
      | some j => unifyLoopDF fuel ⟨d.labels.eraseIdx j, d.rows.map (mergeRowAt j)⟩
      | Option.none => d

/-- `unify_empty_columns_in_first_row` on the labeled frame (the guard
`df.empty or df.shape[0] == 0 or df.shape[1] < 2` returns the frame
unchanged). -/
def unifyDF (d : DF) : DF :=
  if dfEmpty d || d.labels.length < 2 then d
  else unifyLoopDF d.labels.length d

/-- A page-level table fragment: the page number parsed from the file name
and the raw extracted grid. -/
structure Fragment where
  page : Nat
  grid : List (List String)
deriving DecidableEq

/-- A stitched table: inclusive page range and rows, as written to
`merged_page_{start}-{end}.csv` (NaN entries produced by label-misaligned
concatenation serialize to empty fields, matching the empty-string marker of
`concatOuter`). -/
structure MergedTable where
  startPage : Nat
  endPage : Nat
  rows : List (List String)
deriving DecidableEq

/-- State of the grouping pass of `merge_tables_in_folder` (lines 197-200):
closed groups, the fragments of the current run, and the page that opened the
current run (`current_start`; meaningful only while the run is non-empty,
matching the source's `None`). -/
structure GroupState where
  groups : List (Nat × List Fragment)
  current : List Fragment
  currentStart : Nat
deriving DecidableEq

/-- `flush_group` (lines 202-208): move a non-empty current run into the
closed groups. -/
def flushGroup (st : GroupState) : GroupState :=
  if st.current.isEmpty then st
  else { groups := st.groups ++ [(st.currentStart, st.current)], current := [], currentStart := 0 }

/-- One iteration of the grouping loop (lines 210-236): skip fragments that
load empty; a numeric first row extends the current run (or opens one when
none exists); any other first row closes the current run and opens a new
one. -/
def groupStep (st : GroupState) (f : Fragment) : GroupState :=
  let df := load_csv f.grid
  if dfEmpty df then st
  else if classify_first_row (df.rows.headD []) = Verdict.CONTINUATION then
    if st.current.isEmpty then { st with current := [f], currentStart := f.page }
    else { st with current := st.current ++ [f] }
  else
    let st1 := flushGroup st
    { st1 with current := [f], currentStart := f.page }

/-- The grouping pass over the page-ordered fragment list (the source sorts
the CSV files by page number before this loop), with the final flush. -/
def groupFragments (fs : List Fragment) : List (Nat × List Fragment) :=
  (flushGroup (fs.foldl groupStep { groups := [], current := [], currentStart := 0 })).groups

/-- One iteration of the pad loop (line 267): `df2[df2.shape[1]] = ""`.
Column assignment goes by label: when the label `shape[1]` already exists
(possible after `unifyDF` dropped a non-trailing column, leaving a gap in
the labels), the existing column is overwritten in place and the shape does
not grow; otherwise a fresh empty-string column is appended on the right. -/
def padStep (d : DF) : DF :=
  let m := d.labels.length
  if d.labels.contains m then
    ⟨d.labels, d.rows.map (fun r => r.set (d.labels.indexOf m) "")⟩
  else
    ⟨d.labels ++ [m], d.rows.map (fun r => r ++ [""])⟩

/-- The pad loop `for _ in range(diff)` (lines 266-267); `diff` is computed
once before the loop. -/
def padLoop : Nat → DF → DF
  | 0, d => d
  | k + 1, d => padLoop k (padStep d)

/-- Truncation `df2.iloc[:, :main_df.shape[1]]` (line 270): keep the first
`m` column positions with their labels. -/
def truncateDF (m : Nat) (d : DF) : DF := ⟨d.labels.take m, d.rows.map (List.take m)⟩

/-- Column-count reconciliation (lines 262-270): when the counts differ, pad
with `diff` assignments if the candidate is narrower, truncate if wider.
Because a pad assignment onto an existing label does not grow the frame,
reconciliation can fail to reach the target count. -/
def reconcileColumns (mainCols : Nat) (d : DF) : DF :=
  if d.labels.length != mainCols then
    if mainCols > d.labels.length then padLoop (mainCols - d.labels.length) d
    else truncateDF mainCols d
  else d

/-- `pd.concat([main_df, df2], ignore_index=True)` (line 273): rows are
stacked with columns aligned by label (outer join, first frame's label order
followed by the second frame's unseen labels in order of appearance); a row
contributes its cell for each label its frame carries and a missing entry
(NaN) otherwise.  NaN is modelled as the empty string, which is
observationally equivalent here: the frame is only concatenated again or
written with `to_csv`, where NaN serializes to an empty field. -/
def concatOuter (a b : DF) : DF :=
  let cols := a.labels ++ b.labels.filter (fun l => !a.labels.contains l)
  let pick := fun (ls : List Nat) (r : List String) (l : Nat) =>
    if ls.contains l then r.getD (ls.indexOf l) "" else ""
  ⟨cols,
   a.rows.map (fun r => cols.map (pick a.labels r))
     ++ b.rows.map (fun r => cols.map (pick b.labels r))⟩

/-- Lines 254-259: drop the candidate's first row (the degenerate header),
or replace the frame by the completely empty `pd.DataFrame()` when it has at
most one row. -/
def dropHeaderDF (d : DF) : DF :=
  if d.rows.length > 1 then ⟨d.labels, d.rows.tail⟩ else ⟨[], []⟩

/-- Absorb one continuation fragment into the accumulated table (lines
250-276): load, merge degenerate header columns, drop the first row,
reconcile the column count, and append — but only if the reconciled count
matches the accumulator's (line 272); otherwise the fragment is skipped with
a warning and contributes nothing (the `несовместимое число столбцов`
branch, reachable when the reducer dropped a non-trailing column and the pad
overwrote an existing label instead of growing the frame). -/
def absorbFragment (mainDf : DF) (f : Fragment) : DF :=
  let d3 := reconcileColumns mainDf.labels.length (dropHeaderDF (unifyDF (load_csv f.grid)))
  if d3.labels.length == mainDf.labels.length then concatOuter mainDf d3 else mainDf

/-- Stitch one group (lines 242-284): the first file is read as-is, the rest
are absorbed; the emitted table is keyed by the first and last pages of the
group.  An empty file list is skipped (`if not file_list: continue`). -/
def mergeGroup (start : Nat) (files : List Fragment) : Option MergedTable :=
  match files with
  | [] => Option.none
  | f :: rest =>
    some { startPage := start,
           endPage := (rest.getLast?.getD f).page,
           rows := (rest.foldl absorbFragment (load_csv f.grid)).rows }

/-- `merge_tables_in_folder` on the page-ordered fragment list: group, then
stitch each group. -/
def merge_tables_in_folder (fs : List Fragment) : List MergedTable :=
  (groupFragments fs).filterMap (fun p => mergeGroup p.1 p.2)

/-! ## Oracle-based continuation classification (src/merge_tables_3.py)

`analyze_pages_connection` (lines 71-167) and the continuation decision of
`merge_connected_tables` (line 312). -/

/-- The four-field result dictionary `analyze_pages_connection` returns. -/
structure ConnResult where
  is_continuation : Bool
  table_title : String
  reason : String
  same_dimensions : Bool
deriving DecidableEq

/-- Outcome of one oracle call, as discriminated by the branches of
`analyze_pages_connection`: the request may raise, the response text may
contain no `{...}` block, the block may fail `json.loads`, the JSON may lack
a required key, or all four required fields are present. -/
inductive OracleOutcome where
  | apiError (msg : String)
  | noJson (raw : String)
  | invalidJson (raw : String)
  | missingFields (raw : String)
  | parsed (r : ConnResult)
deriving DecidableEq

/-- `analyze_pages_connection`: every failure branch returns the fail-closed
dictionary with `is_continuation = false` and `same_dimensions = false`
(lines 136-141, 145-150, 153-158, 162-167); a fully-formed response is
returned as-is (line 142). -/
def analyze_pages_connection : OracleOutcome → ConnResult
  | .apiError msg => ⟨false, "", msg, false⟩
  | .noJson _ => ⟨false, "", "JSON not found", false⟩
  | .invalidJson _ => ⟨false, "", "Invalid JSON", false⟩
  | .missingFields _ => ⟨false, "", "Invalid response", false⟩
  | .parsed r => r

/-- The continuation decision of `merge_connected_tables` (line 312):
`result["is_continuation"] and result["same_dimensions"]`. -/
def pair_verdict (o : OracleOutcome) : Verdict :=
  if (analyze_pages_connection o).is_continuation
      && (analyze_pages_connection o).same_dimensions then
    .CONTINUATION
  else .NEW_TABLE

/-! ## Semantic group packaging (src/analyze_tables.py, lines 551-618) -/

/-- A subgroup of the semantic-grouping oracle response. -/
structure Subgroup where
  name : String
  row_numbers : List Nat
deriving DecidableEq

/-- A group of the semantic-grouping oracle response. -/
structure GroupInfo where
  name : String
  description : String
  row_numbers : List Nat
  subgroups : List Subgroup
deriving DecidableEq

/-- A material as returned by the extraction oracle.  `row_number` is `none`
when absent (Python `mat.get("row_number")` then yields `None`, which is
never a key of the row lookup). -/
structure Material where
  row_number : Option Nat
  name : Option PyVal
  standard : Option PyVal
  application : Option PyVal
  parameters : List Param
deriving DecidableEq

/-- One `{"header": ..., "value": ...}` indicator of the output row object. -/
structure Indicator where
  header : PyVal
  value : PyVal
deriving DecidableEq

/-- One entry of `grouped_data`: `{"row_name": ..., "indicators": [...]}`. -/
structure RowObj where
  row_name : PyVal
  indicators : List Indicator
deriving DecidableEq

/-- Truthiness of an optional dictionary entry (`if mat.get("standard"):`). -/
def optTruthy (o : Option PyVal) : Bool :=
  match o with
  | some v => v.truthy
  | Option.none => false

/-- Packaging of one material into a row object (lines 595-614). -/
def materialRowObj (mat : Material) : RowObj :=
  { row_name := mat.name.getD (.str ""),
    indicators :=
      (if optTruthy mat.standard then [⟨.str "standard", mat.standard.getD (.str "")⟩] else []) ++
      (if optTruthy mat.application then
        [⟨.str "application", mat.application.getD (.str "")⟩] else []) ++
      mat.parameters.map (fun p => ⟨p.name.getD (.str ""), p.value.getD (.str "")⟩) }

/-- Python dictionary assignment `d[k] = v` on an association list (overwrite
in place, otherwise append). -/
def dictSetNat (d : List (Nat × String)) (k : Nat) (v : String) : List (Nat × String) :=
  if d.any (fun e => e.1 == k) then d.map (fun e => if e.1 == k then (k, v) else e)
  else d ++ [(k, v)]

/-- Python `d.get(k, default)` with an optional key. -/
def dictGetNat (d : List (Nat × String)) (k : Option Nat) (default : String) : String :=
  match k with
  | Option.none => default
  | some n =>
    match d.find? (fun e => e.1 == n) with
    | some e => e.2
    | Option.none => default

/-- `row_to_group` (lines 579-588): map each row number of a group, and of
each of its subgroups, to the parent group's name. -/
def row_to_group (groups : List GroupInfo) : List (Nat × String) :=
  groups.foldl
    (fun d g =>
      let d1 := g.row_numbers.foldl (fun d2 rn => dictSetNat d2 rn g.name) d
      g.subgroups.foldl
        (fun d2 sg => sg.row_numbers.foldl (fun d3 rn => dictSetNat d3 rn g.name) d2) d1)
    []

/-- Dictionary assignment `grouped_data[k] = []`. -/
def gdSetEmpty (d : List (String × List RowObj)) (k : String) : List (String × List RowObj) :=
  if d.any (fun e => e.1 == k) then d.map (fun e => if e.1 == k then (k, []) else e)
  else d ++ [(k, [])]

/-- Lines 616-618: create the key with an empty list when missing, then
append the row object to its bucket. -/
def gdInsert (d : List (String × List RowObj)) (k : String) (r : RowObj) :
    List (String × List RowObj) :=
  let d1 := if d.any (fun e => e.1 == k) then d else d ++ [(k, [])]
  d1.map (fun e => if e.1 == k then (e.1, e.2 ++ [r]) else e)

/-- Lines 572-618: initialize a bucket per group plus `"ungrouped"`, then
route every material to the bucket named by the row lookup, defaulting to
`"ungrouped"`. -/
def build_grouped_data (groups : List GroupInfo) (mats : List Material) :
    List (String × List RowObj) :=
  let init := gdSetEmpty (groups.foldl (fun d g => gdSetEmpty d g.name) []) "ungrouped"
  let lookup := row_to_group groups
  mats.foldl
    (fun d mat => gdInsert d (dictGetNat lookup mat.row_number "ungrouped") (materialRowObj mat))
    init

/-- Lines 554-570: materials are produced only by the per-group oracle calls
(`process_group`, abstracted as `extract`, covering its subgroup calls as
well) and, when `ungrouped_rows` is non-empty, by one extra call on the
pseudo-group carrying those rows; each returned material has its parameters
post-processed (lines 507-510). -/
def collect_all_materials (extract : GroupInfo → List Material) (groups : List GroupInfo)
    (ungrouped : List Nat) : List Material :=
  ((groups.map extract).flatten ++
    (if ungrouped.isEmpty then []
     else extract { name := "ungrouped",
                    description := "Строки, не вошедшие ни в одну группу",
                    row_numbers := ungrouped, subgroups := [] })).map
    (fun m => { m with parameters := process_parameters m.parameters })

/-! ## Concrete scenario data -/

/-- The classification of the Semantic Group Assigner scenario: one group
`G1` covering rows 1-3, no subgroups. -/
def scenarioGroupG1 : GroupInfo := ⟨"G1", "", [1, 2, 3], []⟩

/-- Extraction oracle honoring the prompt contract (rule 6, "Сохраняйте все
строки из CSV"): one material per requested row, carrying that row number. -/
def scenarioExtract : GroupInfo → List Material :=
  fun g => g.row_numbers.map (fun n => ⟨some n, Option.none, Option.none, Option.none, []⟩)

/-- A material whose row number (4) is not covered by any group. -/
def scenarioMaterial4 : Material := ⟨some 4, Option.none, Option.none, Option.none, []⟩

/-- Concrete fragment for page 5: a real (non-numeric) header plus two data
rows. -/
def fragPage5 : Fragment := ⟨5, [["h1", "h2"], ["a", "b"], ["c", "d"]]⟩

/-- Concrete fragment for page 6: a numeric (degenerate) first row plus two
data rows — a continuation of page 5. -/
def fragPage6 : Fragment := ⟨6, [["1", "2"], ["e", "f"], ["g", "h"]]⟩

/-- Concrete fragment for page 7: a real header again — a new table. -/
def fragPage7 : Fragment := ⟨7, [["x", "y"], ["p", "q"]]⟩

/-- Counterexample fragment for page 5: a 3-column table. -/
def fragCexPage5 : Fragment := ⟨5, [["h1", "h2", "h3"], ["a", "b", "c"]]⟩

/-- Counterexample fragment for page 6: a numeric continuation whose header
has a blank cell after a non-blank one, so the reducer drops the non-trailing
column labeled 1, leaving labels `[0, 2]`. -/
def fragCexPage6 : Fragment := ⟨6, [["1", "", "2"], ["x", "y", "z"]]⟩

/-- Counterexample fragment for page 7: a real header — a new table. -/
def fragCexPage7 : Fragment := ⟨7, [["x", "y"], ["p", "q"]]⟩

/-- Two parameters with identical name and value but different notes. -/
def paramNoteOne : Param :=
  ⟨some (.str "H₂"), some (.str "5"), Option.none, Option.none, some (.str "first note")⟩

/-- Second parameter of the duplicate pair. -/
def paramNoteTwo : Param :=
  ⟨some (.str "H₂"), some (.str "5"), Option.none, Option.none, some (.str "second note")⟩

/-! ## Helper lemmas -/

/-- Unfolding equation of `unifyLoop` at a successor fuel value. -/
theorem unifyLoop_succ (fuel : Nat) (g : List (List String)) :
    unifyLoop (fuel + 1) g
      = if (g.headD []).length < 2 then g
        else
          match findMergePos (g.headD []) with
          | some j => unifyLoop fuel (g.map (mergeRowAt j))
          | Option.none => g := rfl

/-- One merging step of the unify loop, in cons form. -/
theorem unifyLoop_step (fuel : Nat) (hd : List String) (tl : List (List String)) (j : Nat)
    (hlen : 2 ≤ hd.length) (hfind : findMergePos hd = some j) :
    unifyLoop (fuel + 1) (hd :: tl) = unifyLoop fuel (mergeRowAt j hd :: tl.map (mergeRowAt j)) := by
  rw [unifyLoop_succ]
  simp [hfind, Nat.not_lt.mpr hlen]

/-- The unify loop stops as soon as the first row has no mergeable position. -/
theorem unifyLoop_stop (fuel : Nat) (hd : List String) (tl : List (List String))
    (hfind : findMergePos hd = Option.none) :
    unifyLoop (fuel + 1) (hd :: tl) = hd :: tl := by
  rw [unifyLoop_succ]
  split
  · rfl
  · simp [hfind]

/-- The unify loop never changes the number of rows. -/
theorem unifyLoop_length (fuel : Nat) (g : List (List String)) :
    (unifyLoop fuel g).length = g.length := by
  induction fuel generalizing g with
  | zero => rfl
  | succ n ih =>
    rw [unifyLoop_succ]
    split
    · rfl
    · cases hf : findMergePos (g.headD []) with
      | some j => simp [ih]
      | none => rfl

/-- The Header-Degeneracy Reducer never changes the number of rows. -/
theorem unify_row_count (g : List (List String)) :
    (unify_empty_columns_in_first_row g).length = g.length := by
  unfold unify_empty_columns_in_first_row
  split
  · rfl
  · exact unifyLoop_length _ _

/-- Merging column 1 and then column 2 of a 4-cell row pairs the cells as
(0,1) and (2,3). -/
theorem mergeRow_pair (r : List String) (h : r.length = 4) :
    mergeRowAt 2 (mergeRowAt 1 r)
      = [mergeCellPair (r.getD 0 "") (r.getD 1 ""), mergeCellPair (r.getD 2 "") (r.getD 3 "")] := by
  rcases r with _ | ⟨a, _ | ⟨b, _ | ⟨c, _ | ⟨d, _ | ⟨e, r⟩⟩⟩⟩⟩ <;>
    first
      | rfl
      | (simp only [List.length_cons, List.length_nil] at h; omega)

/-- A merge position reported by the scan lies within the scanned row. -/
theorem findMergePosAux_bounds (row : List String) :
    ∀ (k j : Nat), findMergePosAux k row = some j → k ≤ j ∧ j + 1 < k + row.length := by
  induction row with
  | nil =>
    intro k j h
    cases h
  | cons a rest ih =>
    intro k j h
    cases rest with
    | nil => cases h
    | cons b rest2 =>
      rw [findMergePosAux] at h
      split at h
      · injection h with h2
        subst h2
        simp only [List.length_cons]
        omega
      · have hb := ih (k + 1) j h
        simp only [List.length_cons] at hb ⊢
        omega

/-- A merge position of a first row satisfies `1 ≤ j < row.length`. -/
theorem findMergePos_bounds (row : List String) (j : Nat)
    (h : findMergePos row = some j) : 1 ≤ j ∧ j < row.length := by
  have hb := findMergePosAux_bounds row 1 j h
  omega

/-- Merging at a valid position shortens a row by one cell. -/
theorem length_mergeRowAt (j : Nat) (r : List String) (h1 : 1 ≤ j) (h2 : j < r.length) :
    (mergeRowAt j r).length = r.length - 1 := by
  simp only [mergeRowAt, List.length_append, List.length_take, List.length_drop,
    List.length_cons, List.length_nil]
  omega

/-- Unfolding equation of `unifyLoopDF` at a successor fuel value. -/
theorem unifyLoopDF_succ (fuel : Nat) (d : DF) :
    unifyLoopDF (fuel + 1) d
      = if d.labels.length < 2 then d
        else
          match findMergePos (d.rows.headD []) with
          | some j => unifyLoopDF fuel ⟨d.labels.eraseIdx j, d.rows.map (mergeRowAt j)⟩
          | Option.none => d := rfl

/-- The labeled unify loop never changes the number of rows. -/
theorem unifyLoopDF_row_count (fuel : Nat) (d : DF) :
    (unifyLoopDF fuel d).rows.length = d.rows.length := by
  induction fuel generalizing d with
  | zero => rfl
  | succ n ih =>
    rw [unifyLoopDF_succ]
    split
    · rfl
    · cases hf : findMergePos (d.rows.headD []) with
      | some j =>
        simp only [hf]
        rw [ih]
        simp
      | none => simp [hf]

/-- The labeled reducer never changes the number of rows. -/
theorem unifyDF_row_count (d : DF) : (unifyDF d).rows.length = d.rows.length := by
  unfold unifyDF
  split
  · rfl
  · exact unifyLoopDF_row_count _ _

/-- On a frame whose label count matches its first-row width, the labeled
unify loop computes the same rows as the row-level loop. -/
theorem unifyLoopDF_rows_eq (fuel : Nat) :
    ∀ (ls : List Nat) (g : List (List String)), ls.length = (g.headD []).length →
      (unifyLoopDF fuel ⟨ls, g⟩).rows = unifyLoop fuel g := by
  induction fuel with
  | zero =>
    intro ls g hw
    rfl
  | succ n ih =>
    intro ls g hw
    cases g with
    | nil =>
      have hlt : ls.length < 2 := by
        simp only [List.headD_nil, List.length_nil] at hw
        omega
      rw [unifyLoopDF_succ, unifyLoop_succ, if_pos hlt,
        if_pos (show (([] : List (List String)).headD []).length < 2 by simp)]
    | cons r rs =>
      have hwr : ls.length = r.length := by simpa using hw
      by_cases hlt : ls.length < 2
      · have hlt2 : ((r :: rs).headD []).length < 2 := by
          simp only [List.headD_cons]
          omega
        rw [unifyLoopDF_succ, unifyLoop_succ, if_pos hlt, if_pos hlt2]
      · have hlt2 : ¬ ((r :: rs).headD []).length < 2 := by
          simp only [List.headD_cons]
          omega
        rw [unifyLoopDF_succ, unifyLoop_succ, if_neg hlt, if_neg hlt2]
        simp only [List.headD_cons]
        cases hf : findMergePos r with
        | none => simp only [hf]
        | some j =>
          simp only [hf, List.map_cons]
          have hb := findMergePos_bounds r j hf
          have hjls : j < ls.length := by omega
          have hw2 : (ls.eraseIdx j).length
              = ((mergeRowAt j r :: rs.map (mergeRowAt j)).headD []).length := by
            simp only [List.headD_cons]
            rw [length_mergeRowAt j r hb.1 hb.2, List.length_eraseIdx, if_pos hjls]
            omega
          have := ih (ls.eraseIdx j) (mergeRowAt j r :: rs.map (mergeRowAt j)) hw2
          simpa using this

/-- On a loaded frame (label count = first-row width), the labeled reducer
computes the same rows as `unify_empty_columns_in_first_row`. -/
theorem unifyDF_rows_eq (d : DF) (hw : d.labels.length = (d.rows.headD []).length) :
    (unifyDF d).rows = unify_empty_columns_in_first_row d.rows := by
  obtain ⟨ls, g⟩ := d
  simp only at hw
  cases g with
  | nil => simp [unifyDF, dfEmpty, unify_empty_columns_in_first_row]
  | cons r rs =>
    have hwr : ls.length = r.length := by simpa using hw
    by_cases hr2 : r.length < 2
    · have hlt : ls.length < 2 := by omega
      simp [unifyDF, dfEmpty, unify_empty_columns_in_first_row, hr2, hlt]
    · have hnlt : ¬ ls.length < 2 := by omega
      have hlse : ls.isEmpty = false := by
        cases ls
        · simp at hwr
          omega
        · rfl
      have hg1 : unifyDF ⟨ls, r :: rs⟩ = unifyLoopDF ls.length ⟨ls, r :: rs⟩ := by
        simp [unifyDF, dfEmpty, hlse, hnlt]
      have hg2 : unify_empty_columns_in_first_row (r :: rs) = unifyLoop r.length (r :: rs) := by
        simp [unify_empty_columns_in_first_row, hr2]
      rw [hg1, hg2, ← hwr]
      exact unifyLoopDF_rows_eq ls.length ls (r :: rs) hw

/-- A pad step never changes the number of rows. -/
theorem padStep_row_count (d : DF) : (padStep d).rows.length = d.rows.length := by
  unfold padStep
  by_cases hm : d.labels.length ∈ d.labels
  · simp [hm]
  · simp [hm]

/-- The pad loop never changes the number of rows. -/
theorem padLoop_row_count (k : Nat) (d : DF) : (padLoop k d).rows.length = d.rows.length := by
  induction k generalizing d with
  | zero => rfl
  | succ n ih =>
    rw [show padLoop (n + 1) d = padLoop n (padStep d) from rfl, ih, padStep_row_count]

/-- Column reconciliation never changes the number of rows. -/
theorem reconcileColumns_row_count (m : Nat) (d : DF) :
    (reconcileColumns m d).rows.length = d.rows.length := by
  unfold reconcileColumns truncateDF
  split
  · split
    · exact padLoop_row_count _ _
    · simp
  · rfl

/-- Concatenation stacks the row counts. -/
theorem concatOuter_row_count (a b : DF) :
    (concatOuter a b).rows.length = a.rows.length + b.rows.length := by
  simp [concatOuter]

/-- Dropping the degenerate header removes exactly one row from a non-empty
frame. -/
theorem dropHeaderDF_row_count (d : DF) (h : d.rows ≠ []) :
    (dropHeaderDF d).rows.length = d.rows.length - 1 := by
  have hpos : 0 < d.rows.length := List.length_pos.mpr h
  unfold dropHeaderDF
  split
  · next hgt => simp [List.length_tail]
  · next hle =>
    simp only [List.length_nil]
    omega

/-- When the reconciled candidate reaches the accumulator's column count,
the absorb step concatenates (the line-272 check passes). -/
theorem absorbFragment_success (mainDf : DF) (f : Fragment)
    (hok : (reconcileColumns mainDf.labels.length
        (dropHeaderDF (unifyDF (load_csv f.grid)))).labels.length = mainDf.labels.length) :
    absorbFragment mainDf f
      = concatOuter mainDf
          (reconcileColumns mainDf.labels.length (dropHeaderDF (unifyDF (load_csv f.grid)))) := by
  unfold absorbFragment
  simp [hok]

/-- Keys collected by the dedup loop after scanning a parameter list. -/
def seenAfter : List (Option PyVal × Option PyVal) → List Param →
    List (Option PyVal × Option PyVal)
  | seen, [] => seen
  | seen, p :: rest =>
    if paramKey p ∈ seen then seenAfter seen rest else seenAfter (paramKey p :: seen) rest

/-- Keys already seen remain seen after scanning more parameters. -/
theorem mem_seenAfter {k : Option PyVal × Option PyVal}
    (seen : List (Option PyVal × Option PyVal)) (l : List Param) (h : k ∈ seen) :
    k ∈ seenAfter seen l := by
  induction l generalizing seen with
  | nil => simpa [seenAfter] using h
  | cons p rest ih =>
    simp only [seenAfter]
    split
    · exact ih _ h
    · exact ih _ (List.mem_cons_of_mem _ h)

/-- The key of every scanned parameter is seen afterwards. -/
theorem key_mem_seenAfter {p : Param} (seen : List (Option PyVal × Option PyVal))
    (l : List Param) (h : p ∈ l) : paramKey p ∈ seenAfter seen l := by
  induction l generalizing seen with
  | nil => cases h
  | cons q rest ih =>
    rcases List.mem_cons.mp h with hq | hmem
    · subst hq
      simp only [seenAfter]
      split
      · next hin => exact mem_seenAfter _ _ hin
      · exact mem_seenAfter _ _ (List.mem_cons_self _ _)
    · simp only [seenAfter]
      split <;> exact ih _ hmem

/-- The dedup loop processes an appended list from the seen-set reached after
the first part. -/
theorem dedupAux_append (seen : List (Option PyVal × Option PyVal)) (l1 l2 : List Param) :
    dedupAux seen (l1 ++ l2) = dedupAux seen l1 ++ dedupAux (seenAfter seen l1) l2 := by
  induction l1 generalizing seen with
  | nil => simp [dedupAux, seenAfter]
  | cons p rest ih =>
    simp only [List.cons_append, dedupAux, seenAfter]
    split
    · exact ih _
    · simp [ih]

/-- A parameter whose key was already seen is dropped by the dedup loop. -/
theorem dedupAux_skip (seen : List (Option PyVal × Option PyVal)) (q : Param) (l : List Param)
    (h : paramKey q ∈ seen) : dedupAux seen (q :: l) = dedupAux seen l := by
  simp [dedupAux, h]

/-- The dedup loop returns a sublist of its input. -/
theorem dedupAux_sublist (seen : List (Option PyVal × Option PyVal)) (l : List Param) :
    List.Sublist (dedupAux seen l) l := by
  induction l generalizing seen with
  | nil => simp [dedupAux]
  | cons p rest ih =>
    simp only [dedupAux]
    split
    · exact List.Sublist.cons _ (ih _)
    · exact List.Sublist.cons₂ _ (ih _)

/-- A blank cell does not pass the numeric-cell test of `row_is_all_digits`:
`remove_brackets_and_dots_around_number` returns it unchanged and the number
regex rejects the empty remainder. -/
theorem blank_cell_not_number (c : String) (h : stripChars c.data = []) :
    matchesNumber (stripChars (remove_brackets_and_dots_chars c.data)) = false := by
  have hrb : remove_brackets_and_dots_chars c.data = c.data := by
    unfold remove_brackets_and_dots_chars
    rw [h]
    rfl
  rw [hrb, h]
  rfl

/-! ## Claim theorems -/

/-- C1: `format_chemical_formula` is not idempotent, and re-applying it to the
already-subscripted string `CH₄` is not a no-op: the `'CH' ↦ 'CH₄'` entry of
the replacement table re-fires inside `CH₄`, so one application of the
formatter maps both `CH4` and `CH₄` to `CH₄₄`, and a second application
appends yet another subscript four. -/
theorem format_chemical_formula_not_idempotent :
    format_chemical_formula "CH4" = "CH₄₄"
      ∧ format_chemical_formula "CH₄" = "CH₄₄"
      ∧ format_chemical_formula (format_chemical_formula "CH₄")
          ≠ format_chemical_formula "CH₄" := by
  refine ⟨by decide, by decide, by decide⟩

/-- C2 counterexample: for a classification whose only group `G1` covers rows
1-3 with no subgroups and empty `ungrouped_rows`, the pipeline extracts
materials only for the classified rows, so the `"ungrouped"` bucket of
`grouped_data` is empty — it does not contain rows 4-10 of a 10-row table. -/
theorem ungrouped_bucket_empty_cex :
    (build_grouped_data [scenarioGroupG1]
        (collect_all_materials scenarioExtract [scenarioGroupG1] [])).map
        (fun e => (e.1, e.2.length))
      = [("G1", 3), ("ungrouped", 0)] := by
  decide

/-- C2 (amended): rows reach a bucket of `grouped_data` only by appearing as
the row number of an extracted material; a material whose row number is
absent from the group lookup is routed to the implicit `"ungrouped"` bucket,
and in the scenario of the claim (group `G1` = rows 1-3, empty
`ungrouped_rows`) no material for rows 4-10 is ever extracted, leaving
`"ungrouped"` empty. -/
theorem ungrouped_bucket_amended :
    ((build_grouped_data [scenarioGroupG1]
        (collect_all_materials scenarioExtract [scenarioGroupG1] [])).find?
        (fun e => e.1 == "ungrouped") = some ("ungrouped", []))
      ∧ ((build_grouped_data [scenarioGroupG1]
          (collect_all_materials scenarioExtract [scenarioGroupG1] [] ++ [scenarioMaterial4])).find?
          (fun e => e.1 == "ungrouped")
            = some ("ungrouped", [materialRowObj scenarioMaterial4])) := by
  refine ⟨by decide, by decide⟩

/-- C3: the fragment pair is classified `CONTINUATION` exactly when the
oracle call succeeded with all four required fields present and both
`is_continuation` and `same_dimensions` true; every failure mode (exception,
missing JSON, invalid JSON, missing field) and every false flag yields
`NEW_TABLE`. -/
theorem continuation_iff_both_flags_true (o : OracleOutcome) :
    pair_verdict o = Verdict.CONTINUATION
      ↔ ∃ t r, o = OracleOutcome.parsed ⟨true, t, r, true⟩ := by
  cases o with
  | apiError m => simp [pair_verdict, analyze_pages_connection]
  | noJson m => simp [pair_verdict, analyze_pages_connection]
  | invalidJson m => simp [pair_verdict, analyze_pages_connection]
  | missingFields m => simp [pair_verdict, analyze_pages_connection]
  | parsed r =>
    obtain ⟨ic, t, rs, sd⟩ := r
    cases ic <;> cases sd <;> simp [pair_verdict, analyze_pages_connection]

/-- C7 counterexample: `define_limit_type` on a non-string input returns the
empty string, which is not the input. -/
theorem limit_type_nonstring_cex :
    define_limit_type_py PyVal.none = PyVal.str ""
      ∧ PyVal.str "" ≠ PyVal.none := by
  refine ⟨rfl, by decide⟩

/-- C7 (amended): on a falsy or non-string input, `format_chemical_formula`
and `format_range_value` return the input unchanged, while
`define_limit_type` returns the empty string (coinciding with the input only
in the empty-string case); all three are total, so no exception escapes. -/
theorem normalizers_on_falsy_or_nonstring (v : PyVal)
    (h : ∀ s : String, v = PyVal.str s → s = "") :
    format_chemical_formula_py v = v
      ∧ format_range_value_py v = v
      ∧ define_limit_type_py v = PyVal.str "" := by
  cases v with
  | str s =>
    have hs : s = "" := h s rfl
    subst hs
    refine ⟨rfl, rfl, rfl⟩
  | none => exact ⟨rfl, rfl, rfl⟩
  | int n => exact ⟨rfl, rfl, rfl⟩
  | boolean b => exact ⟨rfl, rfl, rfl⟩

/-- C7 witness: the guard behavior at the concrete non-string input `7`. -/
theorem normalizers_on_falsy_or_nonstring_witness :
    format_chemical_formula_py (PyVal.int 7) = PyVal.int 7
      ∧ format_range_value_py (PyVal.int 7) = PyVal.int 7
      ∧ define_limit_type_py (PyVal.int 7) = PyVal.str "" :=
  normalizers_on_falsy_or_nonstring (PyVal.int 7) (fun _ hs => PyVal.noConfusion hs)

/-- C10: `row_is_all_digits` rejects the empty row and every row whose cells
are all blank, so such a first row never triggers the numeric-row
continuation shortcut. -/
theorem blank_first_row_rejected (row : List String)
    (h : ∀ c ∈ row, stripChars c.data = []) :
    row_is_all_digits row = false ∧ classify_first_row row = Verdict.NEW_TABLE := by
  have hfil : row.filter (fun x => !(stripChars x.data).isEmpty) = [] := by
    rw [List.filter_eq_nil_iff]
    intro a ha
    simp [h a ha]
  have hr : row_is_all_digits row = false := by
    cases row with
    | nil => rfl
    | cons c rest => simp [row_is_all_digits, hfil]
  exact ⟨hr, by simp [classify_first_row, hr]⟩

/-- C10 witness: a two-cell row of blank cells is rejected. -/
theorem blank_first_row_rejected_witness :
    row_is_all_digits ["", "  "] = false
      ∧ classify_first_row ["", "  "] = Verdict.NEW_TABLE :=
  blank_first_row_rejected ["", "  "] (by decide)

/-- C6: a first row all of whose cells reduce (after stripping wrapping
brackets/dots) to valid numbers is classified `CONTINUATION`; the decision
reads only that row, so it holds for any preceding fragment and involves no
oracle (the heuristic pipeline of merge_tables.py has none). -/
theorem numeric_first_row_is_continuation (row : List String)
    (hne : row ≠ [])
    (hnum : ∀ c ∈ row,
      matchesNumber (stripChars (remove_brackets_and_dots_chars c.data)) = true) :
    classify_first_row row = Verdict.CONTINUATION := by
  have hfil : row.filter (fun x => !(stripChars x.data).isEmpty) = row := by
    rw [List.filter_eq_self]
    intro a ha
    rcases hs : stripChars a.data with _ | ⟨x, xs⟩
    · exfalso
      have hbad := blank_cell_not_number a hs
      rw [hnum a ha] at hbad
      cases hbad
    · simp [hs]
  have hall : row.all
      (fun x => matchesNumber (stripChars (remove_brackets_and_dots_chars x.data))) = true :=
    List.all_eq_true.mpr (fun x hx => hnum x hx)
  cases row with
  | nil => exact absurd rfl hne
  | cons c rest => simp [classify_first_row, row_is_all_digits, hfil, hall]

/-- C6 witness: the row `["1","2","3"]` is classified `CONTINUATION`. -/
theorem numeric_first_row_is_continuation_witness :
    classify_first_row ["1", "2", "3"] = Verdict.CONTINUATION :=
  numeric_first_row_is_continuation ["1", "2", "3"] (by decide) (by decide)

/-- C9: deduplication within a record is keyed on `(name, value)`: a later
parameter whose key already occurred is dropped (so of two entries with equal
name and value but different notes only the first survives), and the output
is a sublist of the input (surviving parameters keep their first-occurrence
order). -/
theorem dedup_first_occurrence_wins (pre mid post : List Param) (p q : Param)
    (hk : paramKey q = paramKey p) :
    deduplicate_parameters (pre ++ p :: mid ++ q :: post)
        = deduplicate_parameters (pre ++ p :: mid ++ post)
      ∧ List.Sublist (deduplicate_parameters (pre ++ p :: mid ++ q :: post))
          (pre ++ p :: mid ++ q :: post) := by
  have hmem : p ∈ pre ++ p :: mid := List.mem_append_right _ (List.mem_cons_self _ _)
  have hseen : paramKey q ∈ seenAfter [] (pre ++ p :: mid) := by
    rw [hk]
    exact key_mem_seenAfter _ _ hmem
  constructor
  · unfold deduplicate_parameters
    calc dedupAux [] (pre ++ p :: mid ++ q :: post)
        = dedupAux [] ((pre ++ p :: mid) ++ q :: post) := by
          rw [List.append_assoc, List.cons_append]
      _ = dedupAux [] (pre ++ p :: mid)
            ++ dedupAux (seenAfter [] (pre ++ p :: mid)) (q :: post) :=
          dedupAux_append [] (pre ++ p :: mid) (q :: post)
      _ = dedupAux [] (pre ++ p :: mid)
            ++ dedupAux (seenAfter [] (pre ++ p :: mid)) post := by
          rw [dedupAux_skip _ _ _ hseen]
      _ = dedupAux [] ((pre ++ p :: mid) ++ post) :=
          (dedupAux_append [] (pre ++ p :: mid) post).symm
      _ = dedupAux [] (pre ++ p :: mid ++ post) := by
          rw [List.append_assoc, List.cons_append]
  · exact dedupAux_sublist _ _

/-- C9 witness: of the two concrete parameters sharing name `H₂` and value
`5` but carrying different notes, only the first survives. -/
theorem dedup_first_occurrence_wins_witness :
    (deduplicate_parameters ([] ++ paramNoteOne :: [] ++ paramNoteTwo :: [])
        = deduplicate_parameters ([] ++ paramNoteOne :: [] ++ []))
      ∧ List.Sublist (deduplicate_parameters ([] ++ paramNoteOne :: [] ++ paramNoteTwo :: []))
          ([] ++ paramNoteOne :: [] ++ paramNoteTwo :: []) :=
  dedup_first_occurrence_wins [] [] [] paramNoteOne paramNoteTwo (by decide)

/-- C8: for every parameter carrying a value, the post-processing loop
formats the name as a chemical formula, normalizes the value as a range, and
overwrites `limit_type` with the classification of the original
(pre-normalization) value — whatever limit type `g` the oracle guessed. -/
theorem post_processor_overwrites_limit_type (p : Param) (g : Option PyVal) (v : PyVal)
    (hv : p.value = some v) :
    process_parameters [{ p with limit_type := g }]
      = [{ name := p.name.map format_chemical_formula_py,
           value := some (format_range_value_py v),
           unit := p.unit,
           limit_type := some (define_limit_type_py v),
           notes := p.notes }] := by
  obtain ⟨n, pv, u, lt, no⟩ := p
  have hv2 : pv = some v := hv
  subst hv2
  cases n <;> simp [process_parameters, deduplicate_parameters, dedupAux, processOne]

/-- C8 witness: an oracle guess of `exact` on the value `не более 5` is
overwritten by the normalizer's classification `max`; the value and name are
normalized from the original strings. -/
theorem post_processor_overwrites_limit_type_witness :
    process_parameters [{ name := some (PyVal.str "CO2"),
                          value := some (PyVal.str "не более 5"),
                          unit := Option.none,
                          limit_type := some (PyVal.str "exact"),
                          notes := Option.none }]
      = [{ name := (some (PyVal.str "CO2")).map format_chemical_formula_py,
           value := some (format_range_value_py (PyVal.str "не более 5")),
           unit := Option.none,
           limit_type := some (define_limit_type_py (PyVal.str "не более 5")),
           notes := Option.none }] :=
  post_processor_overwrites_limit_type
    { name := some (PyVal.str "CO2"), value := some (PyVal.str "не более 5"),
      unit := Option.none, limit_type := some (PyVal.str "exact"), notes := Option.none }
    (some (PyVal.str "exact")) (PyVal.str "не более 5") rfl

/-- C5: on a fragment whose header row is `["A", "", "B", ""]`, the
Header-Degeneracy Reducer merges each blank-header column into its left
neighbor across every row, yielding exactly two columns headed `A` and `B`
with the cell pairs (0,1) and (2,3) merged (stripped cells joined by `/` when
both non-blank, otherwise the non-blank side); applying the Reducer to its
own output changes nothing. -/
theorem unify_header_pattern (rows : List (List String)) (h : ∀ r ∈ rows, r.length = 4) :
    unify_empty_columns_in_first_row (["A", "", "B", ""] :: rows)
        = ["A", "B"] :: rows.map (fun r =>
            [mergeCellPair (r.getD 0 "") (r.getD 1 ""),
             mergeCellPair (r.getD 2 "") (r.getD 3 "")])
      ∧ unify_empty_columns_in_first_row
            (unify_empty_columns_in_first_row (["A", "", "B", ""] :: rows))
          = unify_empty_columns_in_first_row (["A", "", "B", ""] :: rows) := by
  have hm1 : mergeRowAt 1 ["A", "", "B", ""] = ["A", "B", ""] := by decide
  have hm2 : mergeRowAt 2 ["A", "B", ""] = ["A", "B"] := by decide
  have e0 : unify_empty_columns_in_first_row (["A", "", "B", ""] :: rows)
      = unifyLoop 4 (["A", "", "B", ""] :: rows) := by
    simp [unify_empty_columns_in_first_row]
  have e1 : unifyLoop 4 (["A", "", "B", ""] :: rows)
      = unifyLoop 3 (["A", "B", ""] :: rows.map (mergeRowAt 1)) := by
    have hstep := unifyLoop_step 3 ["A", "", "B", ""] rows 1 (by decide) (by decide)
    rw [hm1] at hstep
    exact hstep
  have e2 : unifyLoop 3 (["A", "B", ""] :: rows.map (mergeRowAt 1))
      = unifyLoop 2 (["A", "B"] :: (rows.map (mergeRowAt 1)).map (mergeRowAt 2)) := by
    have hstep := unifyLoop_step 2 ["A", "B", ""] (rows.map (mergeRowAt 1)) 2
      (by decide) (by decide)
    rw [hm2] at hstep
    exact hstep
  have e3 : unifyLoop 2 (["A", "B"] :: (rows.map (mergeRowAt 1)).map (mergeRowAt 2))
      = ["A", "B"] :: (rows.map (mergeRowAt 1)).map (mergeRowAt 2) :=
    unifyLoop_stop 1 _ _ (by decide)
  have key : unify_empty_columns_in_first_row (["A", "", "B", ""] :: rows)
      = ["A", "B"] :: rows.map (fun r =>
          [mergeCellPair (r.getD 0 "") (r.getD 1 ""),
           mergeCellPair (r.getD 2 "") (r.getD 3 "")]) := by
    rw [e0, e1, e2, e3, List.map_map]
    congr 1
    apply List.map_congr_left
    intro r hr
    exact mergeRow_pair r (h r hr)
  refine ⟨key, ?_⟩
  rw [key]
  have e4 : unify_empty_columns_in_first_row (["A", "B"] :: rows.map (fun r =>
        [mergeCellPair (r.getD 0 "") (r.getD 1 ""),
         mergeCellPair (r.getD 2 "") (r.getD 3 "")]))
      = unifyLoop 2 (["A", "B"] :: rows.map (fun r =>
          [mergeCellPair (r.getD 0 "") (r.getD 1 ""),
           mergeCellPair (r.getD 2 "") (r.getD 3 "")])) := by
    simp [unify_empty_columns_in_first_row]
  rw [e4]
  exact unifyLoop_stop 1 _ _ (by decide)

/-- C5 witness: the reduction and its idempotence at one concrete data row. -/
theorem unify_header_pattern_witness :
    unify_empty_columns_in_first_row (["A", "", "B", ""] :: [["a", "b", "c", "d"]])
        = ["A", "B"] :: [["a", "b", "c", "d"]].map (fun r =>
            [mergeCellPair (r.getD 0 "") (r.getD 1 ""),
             mergeCellPair (r.getD 2 "") (r.getD 3 "")])
      ∧ unify_empty_columns_in_first_row
            (unify_empty_columns_in_first_row (["A", "", "B", ""] :: [["a", "b", "c", "d"]]))
          = unify_empty_columns_in_first_row (["A", "", "B", ""] :: [["a", "b", "c", "d"]]) :=
  unify_header_pattern [["a", "b", "c", "d"]] (by decide)

/-- C4 counterexample: fragment 2's numeric first row `["1","","2"]` makes it
a continuation, but the reducer merges column 1 away, leaving labels
`[0, 2]`; the pad assignment `df2[2] = ""` then overwrites the existing
column 2 instead of growing the frame, the column-count check fails and the
fragment is skipped — the first emitted table has 2 rows, not
2 + 2 - 1 = 3 as the claim demands. -/
theorem stitch_three_fragments_cex :
    classify_first_row ((load_csv fragCexPage6.grid).rows.headD []) = Verdict.CONTINUATION
      ∧ classify_first_row ((load_csv fragCexPage7.grid).rows.headD []) = Verdict.NEW_TABLE
      ∧ (merge_tables_in_folder [fragCexPage5, fragCexPage6, fragCexPage7]).map
          (fun t => (t.startPage, t.endPage, t.rows.length))
          = [(5, 6, 2), (7, 7, 2)]
      ∧ ¬ (2 : Nat) = (load_csv fragCexPage5.grid).rows.length
            + (load_csv fragCexPage6.grid).rows.length - 1 := by
  refine ⟨by decide, by decide, by decide, by decide⟩

/-- C4 (amended): for three page-ordered fragments where fragment 2's loaded
first row classifies as `CONTINUATION` and fragment 3's as `NEW_TABLE`, the
stitcher emits exactly two tables, the first keyed by fragments 1-2's page
range and the second covering fragment 3 alone, unchanged; and whenever the
column reconciliation of the reduced candidate reaches the accumulator's
column count (`hok` — in particular whenever the reducer merged no columns
of fragment 2), the first table's row count is fragment 1's rows plus
fragment 2's rows minus the dropped duplicated header row.  (When
reconciliation fails the source skips the candidate, which contributes zero
rows — see the counterexample.) -/
theorem stitch_three_fragments (f1 f2 f3 : Fragment)
    (h1 : dfEmpty (load_csv f1.grid) = false)
    (h2 : dfEmpty (load_csv f2.grid) = false)
    (h3 : dfEmpty (load_csv f3.grid) = false)
    (hc2 : classify_first_row ((load_csv f2.grid).rows.headD []) = Verdict.CONTINUATION)
    (hc3 : classify_first_row ((load_csv f3.grid).rows.headD []) = Verdict.NEW_TABLE)
    (hok : (reconcileColumns (load_csv f1.grid).labels.length
            (dropHeaderDF (unifyDF (load_csv f2.grid)))).labels.length
          = (load_csv f1.grid).labels.length) :
    ∃ rows1 : List (List String),
      merge_tables_in_folder [f1, f2, f3]
          = [⟨f1.page, f2.page, rows1⟩, ⟨f3.page, f3.page, (load_csv f3.grid).rows⟩]
        ∧ rows1.length
            = (load_csv f1.grid).rows.length + (load_csv f2.grid).rows.length - 1 := by
  have h2r : (load_csv f2.grid).rows ≠ [] := by
    intro hnil
    simp [dfEmpty, hnil] at h2
  have hc2h : classify_first_row ((load_csv f2.grid).rows.head?.getD [])
      = Verdict.CONTINUATION := by
    simpa using hc2
  have hc3ne : ¬ classify_first_row ((load_csv f3.grid).rows.head?.getD [])
      = Verdict.CONTINUATION := by
    have hc3h : classify_first_row ((load_csv f3.grid).rows.head?.getD [])
        = Verdict.NEW_TABLE := by
      simpa using hc3
    rw [hc3h]
    intro hx
    cases hx
  have stepA : groupStep ⟨[], [], 0⟩ f1 = ⟨[], [f1], f1.page⟩ := by
    by_cases hc1 : classify_first_row ((load_csv f1.grid).rows.head?.getD [])
        = Verdict.CONTINUATION
    · simp [groupStep, h1, hc1, flushGroup]
    · simp [groupStep, h1, hc1, flushGroup]
  have stepB : groupStep ⟨[], [f1], f1.page⟩ f2 = ⟨[], [f1, f2], f1.page⟩ := by
    simp [groupStep, h2, hc2h]
  have stepC : groupStep ⟨[], [f1, f2], f1.page⟩ f3
      = ⟨[(f1.page, [f1, f2])], [f3], f3.page⟩ := by
    simp [groupStep, h3, hc3ne, flushGroup]
  have hgroups : groupFragments [f1, f2, f3] = [(f1.page, [f1, f2]), (f3.page, [f3])] := by
    simp [groupFragments, stepA, stepB, stepC, flushGroup]
  have hune : (unifyDF (load_csv f2.grid)).rows ≠ [] := by
    intro hnil
    have hlen := unifyDF_row_count (load_csv f2.grid)
    rw [hnil] at hlen
    exact h2r (List.length_eq_zero.mp (by simpa using hlen.symm))
  have habs : (absorbFragment (load_csv f1.grid) f2).rows.length
      = (load_csv f1.grid).rows.length + (load_csv f2.grid).rows.length - 1 := by
    rw [absorbFragment_success _ _ hok, concatOuter_row_count, reconcileColumns_row_count,
      dropHeaderDF_row_count _ hune, unifyDF_row_count]
    have hpos : 0 < (load_csv f2.grid).rows.length := List.length_pos.mpr h2r
    omega
  refine ⟨(absorbFragment (load_csv f1.grid) f2).rows, ?_, habs⟩
  simp [merge_tables_in_folder, hgroups, mergeGroup]

/-- C4 witness: the concrete fragments for pages 5 (header + 2 rows),
6 (numeric first row + 2 rows, no degenerate header columns) and
7 (new header + 1 row) stitch into two tables, the first with 3 + 3 - 1
rows. -/
theorem stitch_three_fragments_witness :
    ∃ rows1 : List (List String),
      merge_tables_in_folder [fragPage5, fragPage6, fragPage7]
          = [⟨fragPage5.page, fragPage6.page, rows1⟩,
             ⟨fragPage7.page, fragPage7.page, (load_csv fragPage7.grid).rows⟩]
        ∧ rows1.length
            = (load_csv fragPage5.grid).rows.length
              + (load_csv fragPage6.grid).rows.length - 1 :=
  stitch_three_fragments fragPage5 fragPage6 fragPage7
    (by decide) (by decide) (by decide) (by decide) (by decide) (by decide)

end Parcer
